import Mathlib

/-!
Shallow embedding of the toxicity-analysis service in `index.py`.

Scores are modelled as rationals (ℚ); Python dicts whose insertion order
matters (the Detoxify score dict) are modelled as association lists
`List (String × ℚ)`.  The three external models (Detoxify classifier, OCR
reader, speech recogniser) are opaque in the source, so route functions take
them as oracle parameters; universal quantification over an oracle expresses
that a code path is independent of (never invokes) that collaborator.
-/

/-- The six Detoxify category keys, in the order of the source dict
`DETOXIFY_CATEGORIES` (index.py lines 22-29). -/
def DETOXIFY_CATEGORIES : List String :=
  ["toxic", "severe_toxic", "obscene", "threat", "insult", "identity_hate"]

/-- `TOXICITY_THRESHOLD = 0.5` (index.py line 32). -/
def TOXICITY_THRESHOLD : ℚ := 1/2

/-- The JSON body of a successful analysis (the dict built at
index.py lines 75-80). -/
structure Verdict where
  detected_categories : List (String × ℚ)
  overall_score : ℚ
  all_scores : List (String × ℚ)
  is_toxic : Bool
deriving Repr, DecidableEq

/-- Failure of the aggregation itself.  `emptyMax` models the `ValueError`
Python's `max` raises on an empty sequence (reachable at index.py line 73
when `raw_scores` is empty). -/
inductive AggError
  | emptyMax
deriving Repr, DecidableEq

/-- Python `max(values)` (index.py line 73): raises on an empty sequence,
otherwise folds the binary max over the elements. -/
def maxList : List ℚ → Except AggError ℚ
  | [] => Except.error AggError.emptyMax
  | x :: xs => Except.ok (xs.foldl max x)

/-- The aggregation policy of `analyze_toxicity` (index.py lines 58-80),
taking the classifier's already-computed `raw_scores`.  The source loop
simultaneously builds `detected_categories`, their score sum and their
count; that is expressed here as `filter` / `sum` / `length` over the same
association list.  Both branches end in Python's `min(overall_score, 100)`
from line 77. -/
def aggregate (raw_scores : List (String × ℚ)) : Except AggError Verdict :=
  let detected := raw_scores.filter (fun p => TOXICITY_THRESHOLD ≤ p.2)
  if 0 < detected.length then
    Except.ok
      { detected_categories := detected
        overall_score := min (((detected.map Prod.snd).sum / (detected.length : ℚ)) * 100) 100
        all_scores := raw_scores
        is_toxic := decide (0 < detected.length) }
  else
    match maxList (raw_scores.map Prod.snd) with
    | Except.error e => Except.error e
    | Except.ok m =>
      Except.ok
        { detected_categories := detected
          overall_score := min (m * 50) 100
          all_scores := raw_scores
          is_toxic := decide (0 < detected.length) }

/-- `analyze_toxicity` (index.py line 54): run the classifier oracle on the
text, then aggregate its scores. -/
def analyze_toxicity (predict : String → List (String × ℚ)) (text : String) :
    Except AggError Verdict :=
  aggregate (predict text)

instance {e a : Type} [DecidableEq e] [DecidableEq a] : DecidableEq (Except e a) := fun x y =>
  match x, y with
  | Except.ok u, Except.ok v => if h : u = v then isTrue (by rw [h]) else isFalse (by simp [h])
  | Except.error u, Except.error v =>
      if h : u = v then isTrue (by rw [h]) else isFalse (by simp [h])
  | Except.ok _, Except.error _ => isFalse (by simp)
  | Except.error _, Except.ok _ => isFalse (by simp)

/-- The allow-list of `allowed_audio_file` (index.py line 99). -/
def ALLOWED_AUDIO_EXTENSIONS : List String := ["wav", "mp3", "m4a", "flac", "aac"]

/-- Python `filename.rsplit('.', 1)[1]` on the character list: the characters
after the LAST occurrence of `'.'` (meaningful only when a dot is present,
exactly as in the source where the short-circuiting `and` guards it). -/
def pyRsplitExt (l : List Char) : List Char :=
  (l.reverse.takeWhile (fun c => c != '.')).reverse

/-- `allowed_audio_file` (index.py lines 97-99):
`'.' in filename and filename.rsplit('.', 1)[1].lower() in {...}`. -/
def allowed_audio_file (filename : String) : Bool :=
  decide ('.' ∈ filename.toList) &&
    decide (String.mk ((pyRsplitExt filename.toList).map Char.toLower) ∈ ALLOWED_AUDIO_EXTENSIONS)

/-- The possible outcomes of the speech-recognition pipeline in
`speech_to_text` (index.py lines 101-123), abstracting the external
recogniser: a successful transcript, `sr.UnknownValueError`,
`sr.RequestError`, or any exception in decoding/conversion (the outer
`except`). -/
inductive SttOutcome
  | transcript (s : String)
  | unknownValue
  | requestError (msg : String)
  | processingError (msg : String)
deriving Repr, DecidableEq

/-- The string `speech_to_text` returns for each outcome (index.py
lines 116-123). -/
def speech_to_text : SttOutcome → String
  | SttOutcome.transcript s => s
  | SttOutcome.unknownValue => "Could not understand audio"
  | SttOutcome.requestError msg => "Speech recognition error: " ++ msg
  | SttOutcome.processingError msg => "Audio processing error: " ++ msg

/-- Whether the character list `l` begins with the pattern `pat`. -/
def listStartsWith : List Char → List Char → Bool
  | _, [] => true
  | [], _ :: _ => false
  | c :: cs, d :: ds => c == d && listStartsWith cs ds

/-- Python `s.startswith(pat)`. -/
def pyStartsWith (s pat : String) : Bool :=
  listStartsWith s.toList pat.toList

/-- Python `s.strip()`: remove leading and trailing whitespace. -/
def pyStrip (s : String) : String :=
  String.mk (((s.toList.dropWhile Char.isWhitespace).reverse.dropWhile
    Char.isWhitespace).reverse)

/-- An HTTP response shaped by the routes: a 200 JSON verdict (with the
optional `extracted_text` field the image/audio routes merge in), or an
error status with a message. -/
inductive HttpResponse
  | ok (verdict : Verdict) (extracted_text : Option String)
  | err (status : Nat) (message : String)
deriving Repr, DecidableEq

/-- The distinguishable shapes of a `POST /analyze/text` request body as seen
by `analyze_text_route` (index.py lines 1268-1283):
* `badJson` — the body fails to parse, `request.get_json()` raises
  (Flask raises `BadRequest` on undecodable JSON), caught by the route's
  blanket `except` (index.py line 1282);
* `noBody` — `get_json()` returns a falsy value (e.g. JSON `null`);
* `missingText` — a JSON object without a `"text"` key;
* `withText s` — a JSON object whose `"text"` value is the string `s`. -/
inductive TextRequest
  | badJson
  | noBody
  | missingText
  | withText (s : String)
deriving Repr, DecidableEq

/-- `analyze_text_route` (index.py lines 1268-1283).  The 500 message keeps
only the fixed part of `f'Text analysis failed: {str(e)}'`. -/
def analyze_text_route (predict : String → List (String × ℚ)) :
    TextRequest → HttpResponse
  | TextRequest.badJson => HttpResponse.err 500 "Text analysis failed"
  | TextRequest.noBody => HttpResponse.err 400 "No text provided"
  | TextRequest.missingText => HttpResponse.err 400 "No text provided"
  | TextRequest.withText s =>
    let text := pyStrip s
    if text = "" then HttpResponse.err 400 "Text cannot be empty"
    else
      match aggregate (predict text) with
      | Except.ok v => HttpResponse.ok v none
      | Except.error _ => HttpResponse.err 500 "Text analysis failed"

/-- The zero-score short-circuit body built inline in the image and audio
routes (index.py lines 1298-1304 and 1329-1335): empty
`detected_categories`, `overall_score` 0, `is_toxic` false, and
`all_scores = {category: 0.0 for category in DETOXIFY_CATEGORIES}`. -/
def zeroScoresVerdict : Verdict :=
  { detected_categories := []
    overall_score := 0
    all_scores := DETOXIFY_CATEGORIES.map (fun c => (c, (0 : ℚ)))
    is_toxic := false }

/-- `analyze_image_route` (index.py lines 1285-1311).  `image` is `none`
when the multipart field is absent, otherwise `some filename`;
`ocr_result` is the string `extract_text_from_image` would return for the
uploaded bytes (the OCR pipeline is external). -/
def analyze_image_route (predict : String → List (String × ℚ)) (ocr_result : String)
    (image : Option String) : HttpResponse :=
  match image with
  | none => HttpResponse.err 400 "No image file provided"
  | some filename =>
    if filename = "" then HttpResponse.err 400 "No image selected"
    else
      let extracted_text := ocr_result
      if pyStartsWith extracted_text "Error" || extracted_text = "No text detected in image" then
        HttpResponse.ok zeroScoresVerdict (some extracted_text)
      else
        match aggregate (predict extracted_text) with
        | Except.ok v => HttpResponse.ok v (some extracted_text)
        | Except.error _ => HttpResponse.err 500 "Image analysis failed"

/-- `analyze_audio_route` (index.py lines 1313-1342).  `audio` is `none`
when the multipart field is absent, otherwise `some filename`;
`stt_result` is the string `speech_to_text` would return for the uploaded
bytes. -/
def analyze_audio_route (predict : String → List (String × ℚ)) (stt_result : String)
    (audio : Option String) : HttpResponse :=
  match audio with
  | none => HttpResponse.err 400 "No audio file provided"
  | some filename =>
    if filename = "" then HttpResponse.err 400 "No audio selected"
    else if !allowed_audio_file filename then
      HttpResponse.err 400 "Invalid audio format. Supported: WAV, MP3, M4A, FLAC, AAC"
    else
      let extracted_text := stt_result
      if pyStartsWith extracted_text "Error" || extracted_text = "Could not understand audio" then
        HttpResponse.ok zeroScoresVerdict (some extracted_text)
      else
        match aggregate (predict extracted_text) with
        | Except.ok v => HttpResponse.ok v (some extracted_text)
        | Except.error _ => HttpResponse.err 500 "Audio analysis failed"

/-- A fixed classifier oracle used for concrete witnesses: every text gets
`toxic` 0.9 and the five other categories 0.1. -/
def highToxPredict : String → List (String × ℚ) := fun _ =>
  [("toxic", 9/10), ("severe_toxic", 1/10), ("obscene", 1/10),
   ("threat", 1/10), ("insult", 1/10), ("identity_hate", 1/10)]

/-! ### Helper lemmas -/

theorem foldl_max_mem (x : ℚ) (xs : List ℚ) : xs.foldl max x ∈ x :: xs := by
  induction xs generalizing x with
  | nil => simp [List.foldl_nil]
  | cons y ys ih =>
    simp only [List.foldl_cons]
    rcases List.mem_cons.mp (ih (max x y)) with h1 | h2
    · rcases max_choice x y with hx | hy
      · rw [h1, hx]; exact List.mem_cons_self _ _
      · rw [h1, hy]; exact List.mem_cons_of_mem _ (List.mem_cons_self _ _)
    · exact List.mem_cons_of_mem _ (List.mem_cons_of_mem _ h2)

theorem le_foldl_max (x : ℚ) (xs : List ℚ) : x ≤ xs.foldl max x := by
  induction xs generalizing x with
  | nil => exact le_refl x
  | cons y ys ih => exact le_trans (le_max_left x y) (ih (max x y))

theorem mem_le_foldl_max (x : ℚ) (xs : List ℚ) : ∀ y ∈ xs, y ≤ xs.foldl max x := by
  induction xs generalizing x with
  | nil => intro y hy; simp at hy
  | cons z zs ih =>
    intro y hy
    simp only [List.foldl_cons]
    rcases List.mem_cons.mp hy with h1 | h2
    · rw [h1]; exact le_trans (le_max_right x z) (le_foldl_max (max x z) zs)
    · exact ih (max x z) y h2

theorem aggregate_pos (raw : List (String × ℚ))
    (h : raw.filter (fun p => TOXICITY_THRESHOLD ≤ p.2) ≠ []) :
    aggregate raw = Except.ok
      { detected_categories := raw.filter (fun p => TOXICITY_THRESHOLD ≤ p.2)
        overall_score := min ((((raw.filter (fun p => TOXICITY_THRESHOLD ≤ p.2)).map
          Prod.snd).sum /
          ((raw.filter (fun p => TOXICITY_THRESHOLD ≤ p.2)).length : ℚ)) * 100) 100
        all_scores := raw
        is_toxic := true } := by
  have hl : 0 < (raw.filter (fun p => TOXICITY_THRESHOLD ≤ p.2)).length :=
    List.length_pos.mpr h
  simp [aggregate, hl]

theorem aggregate_zero (raw : List (String × ℚ)) (x : ℚ) (xs : List ℚ)
    (hmap : raw.map Prod.snd = x :: xs)
    (h : raw.filter (fun p => TOXICITY_THRESHOLD ≤ p.2) = []) :
    aggregate raw = Except.ok
      { detected_categories := []
        overall_score := min ((xs.foldl max x) * 50) 100
        all_scores := raw
        is_toxic := false } := by
  simp [aggregate, h, hmap, maxList]

theorem aggregate_ok_of_ne_nil (raw : List (String × ℚ)) (hne : raw ≠ []) :
    ∃ v, aggregate raw = Except.ok v := by
  by_cases h : raw.filter (fun p => TOXICITY_THRESHOLD ≤ p.2) = []
  · cases raw with
    | nil => exact absurd rfl hne
    | cons p rest =>
      exact ⟨_, aggregate_zero (p :: rest) p.2 (rest.map Prod.snd) rfl h⟩
  · exact ⟨_, aggregate_pos raw h⟩

theorem ne_nil_of_map_fst_cat (raw : List (String × ℚ))
    (hcat : raw.map Prod.fst = DETOXIFY_CATEGORIES) : raw ≠ [] := by
  intro h
  rw [h] at hcat
  simp [DETOXIFY_CATEGORIES] at hcat

/-! ### Claim theorems -/

/-- C1: for every RawScores of the six categories with probabilities in
[0,1], the aggregator's `detected_categories` are exactly the entries with
score ≥ 0.5, `all_scores` is the input unchanged, `is_toxic` holds iff
`detected_categories` is non-empty, and when non-empty `overall_score` is
100 times the mean of the detected scores capped at 100. -/
theorem C1_aggregator_shape (raw : List (String × ℚ))
    (hcat : raw.map Prod.fst = DETOXIFY_CATEGORIES)
    (hb : ∀ p ∈ raw, 0 ≤ p.2 ∧ p.2 ≤ 1) :
    ∃ v, aggregate raw = Except.ok v ∧
      v.detected_categories = raw.filter (fun p => (1 : ℚ)/2 ≤ p.2) ∧
      v.all_scores = raw ∧
      (v.is_toxic = true ↔ v.detected_categories ≠ []) ∧
      (v.detected_categories ≠ [] →
        v.overall_score =
          min (100 * ((v.detected_categories.map Prod.snd).sum /
            (v.detected_categories.length : ℚ))) 100) := by
  by_cases h : raw.filter (fun p => TOXICITY_THRESHOLD ≤ p.2) = []
  · cases raw with
    | nil => exact absurd rfl (ne_nil_of_map_fst_cat [] hcat)
    | cons p rest =>
      refine ⟨_, aggregate_zero (p :: rest) p.2 (rest.map Prod.snd) rfl h, ?_, rfl, ?_, ?_⟩
      · exact h.symm
      · simp
      · intro hne; exact absurd rfl hne
  · refine ⟨_, aggregate_pos raw h, ?_, rfl, ?_, ?_⟩
    · rfl
    · simp only [iff_true_intro h]
    · intro _
      rw [mul_comm]

/-- C6: applied to an empty RawScores mapping, the aggregation reaches
Python's `max` on the empty value sequence, which raises `ValueError`
(modelled as `AggError.emptyMax`); no `InputError` guard exists before that
call. -/
theorem C6_empty_raw_scores_hits_max :
    aggregate [] = Except.error AggError.emptyMax := rfl

/-- A concrete six-category score list used in witnesses: exactly
`highToxPredict` applied to any text. -/
def rawExample : List (String × ℚ) :=
  [("toxic", 9/10), ("severe_toxic", 1/10), ("obscene", 1/10),
   ("threat", 1/10), ("insult", 1/10), ("identity_hate", 1/10)]

/-- Witness for C1 at a concrete six-category input. -/
theorem C1_aggregator_shape_witness :
    (rawExample.map Prod.fst = DETOXIFY_CATEGORIES) ∧
    (∀ p ∈ rawExample, 0 ≤ p.2 ∧ p.2 ≤ 1) ∧
    (∃ v, aggregate rawExample = Except.ok v ∧
      v.detected_categories = rawExample.filter (fun p => (1 : ℚ)/2 ≤ p.2) ∧
      v.all_scores = rawExample ∧
      (v.is_toxic = true ↔ v.detected_categories ≠ []) ∧
      (v.detected_categories ≠ [] →
        v.overall_score =
          min (100 * ((v.detected_categories.map Prod.snd).sum /
            (v.detected_categories.length : ℚ))) 100)) :=
  ⟨by decide, by simp [rawExample]; norm_num,
    C1_aggregator_shape rawExample (by decide) (by simp [rawExample]; norm_num)⟩

/-- C3: for every RawScores of the six categories with scores in [0,1], the
aggregator succeeds, its `overall_score` lies in [0,100], and `is_toxic`
holds iff at least one category scores ≥ 0.5. -/
theorem C3_bounds_and_toxicity (raw : List (String × ℚ))
    (hcat : raw.map Prod.fst = DETOXIFY_CATEGORIES)
    (hb : ∀ p ∈ raw, 0 ≤ p.2 ∧ p.2 ≤ 1) :
    ∃ v, aggregate raw = Except.ok v ∧
      0 ≤ v.overall_score ∧ v.overall_score ≤ 100 ∧
      (v.is_toxic = true ↔ ∃ p ∈ raw, (1 : ℚ)/2 ≤ p.2) := by
  by_cases h : raw.filter (fun p => TOXICITY_THRESHOLD ≤ p.2) = []
  · cases raw with
    | nil => exact absurd rfl (ne_nil_of_map_fst_cat [] hcat)
    | cons p rest =>
      refine ⟨_, aggregate_zero (p :: rest) p.2 (rest.map Prod.snd) rfl h, ?_, ?_, ?_⟩
      · apply le_min
        · apply mul_nonneg
          · exact le_trans (hb p (List.mem_cons_self p rest)).1 (le_foldl_max _ _)
          · norm_num
        · norm_num
      · exact min_le_right _ _
      · constructor
        · intro hc; exact absurd hc (by simp)
        · rintro ⟨q, hq, hq2⟩
          exfalso
          have hqf : q ∈ (p :: rest).filter (fun r => TOXICITY_THRESHOLD ≤ r.2) :=
            List.mem_filter.mpr ⟨hq, by simpa [TOXICITY_THRESHOLD] using hq2⟩
          rw [h] at hqf
          simp at hqf
  · refine ⟨_, aggregate_pos raw h, ?_, ?_, ?_⟩
    · apply le_min
      · apply mul_nonneg
        · apply div_nonneg
          · apply List.sum_nonneg
            intro y hy
            obtain ⟨q, hq, rfl⟩ := List.mem_map.mp hy
            have hql : TOXICITY_THRESHOLD ≤ q.2 :=
              of_decide_eq_true (List.mem_filter.mp hq).2
            calc (0 : ℚ) ≤ 1/2 := by norm_num
              _ ≤ q.2 := hql
          · exact Nat.cast_nonneg _
        · norm_num
      · norm_num
    · exact min_le_right _ _
    · constructor
      · intro _
        obtain ⟨q, hq⟩ := List.exists_mem_of_ne_nil _ h
        have hmem := List.mem_filter.mp hq
        exact ⟨q, hmem.1, by simpa [TOXICITY_THRESHOLD] using of_decide_eq_true hmem.2⟩
      · intro _; rfl

/-- Witness for C3 at a concrete six-category input. -/
theorem C3_bounds_and_toxicity_witness :
    (rawExample.map Prod.fst = DETOXIFY_CATEGORIES) ∧
    (∀ p ∈ rawExample, 0 ≤ p.2 ∧ p.2 ≤ 1) ∧
    (∃ v, aggregate rawExample = Except.ok v ∧
      0 ≤ v.overall_score ∧ v.overall_score ≤ 100 ∧
      (v.is_toxic = true ↔ ∃ p ∈ rawExample, (1 : ℚ)/2 ≤ p.2)) :=
  ⟨by decide, by simp [rawExample]; norm_num,
    C3_bounds_and_toxicity rawExample (by decide) (by simp [rawExample]; norm_num)⟩

/-- A concrete six-category score list whose maximum is 0.3 and in which
every score is below the 0.5 threshold. -/
def ex03 : List (String × ℚ) :=
  [("toxic", 3/10), ("severe_toxic", 1/10), ("obscene", 2/10),
   ("threat", 1/10), ("insult", 1/10), ("identity_hate", 0)]

/-- C5: for every RawScores of the six categories with all scores strictly
below 0.5, the aggregator returns `overall_score` equal to 50 times the
maximum raw score and `is_toxic` false; in particular, on a six-category
input whose maximum score is 0.3 the `overall_score` is exactly 15. -/
theorem C5_all_below_threshold :
    (∀ raw : List (String × ℚ), raw.map Prod.fst = DETOXIFY_CATEGORIES →
      (∀ p ∈ raw, p.2 < (1 : ℚ)/2) →
      ∃ v m, aggregate raw = Except.ok v ∧
        m ∈ raw.map Prod.snd ∧ (∀ s ∈ raw.map Prod.snd, s ≤ m) ∧
        v.overall_score = 50 * m ∧ v.is_toxic = false) ∧
    (∃ v, aggregate ex03 = Except.ok v ∧
      v.overall_score = 15 ∧ v.is_toxic = false) := by
  constructor
  · intro raw hcat hlt
    have h : raw.filter (fun p => TOXICITY_THRESHOLD ≤ p.2) = [] := by
      rw [List.filter_eq_nil_iff]
      intro p hp
      simp only [decide_eq_true_eq, TOXICITY_THRESHOLD]
      exact not_le.mpr (hlt p hp)
    cases raw with
    | nil => exact absurd rfl (ne_nil_of_map_fst_cat [] hcat)
    | cons p rest =>
      have hmlt : (rest.map Prod.snd).foldl max p.2 < (1 : ℚ)/2 := by
        rcases List.mem_cons.mp (foldl_max_mem p.2 (rest.map Prod.snd)) with h1 | h2
        · rw [h1]; exact hlt p (List.mem_cons_self p rest)
        · obtain ⟨q, hq, hq2⟩ := List.mem_map.mp h2
          rw [← hq2]; exact hlt q (List.mem_cons_of_mem p hq)
      refine ⟨_, (rest.map Prod.snd).foldl max p.2,
        aggregate_zero (p :: rest) p.2 (rest.map Prod.snd) rfl h,
        foldl_max_mem p.2 (rest.map Prod.snd), ?_, ?_, rfl⟩
      · intro s hs
        rcases List.mem_cons.mp hs with h1 | h2
        · rw [h1]; exact le_foldl_max p.2 (rest.map Prod.snd)
        · exact mem_le_foldl_max p.2 (rest.map Prod.snd) s h2
      · have hle : (rest.map Prod.snd).foldl max p.2 * 50 ≤ 100 := by linarith
        calc min ((rest.map Prod.snd).foldl max p.2 * 50) 100
            = (rest.map Prod.snd).foldl max p.2 * 50 := min_eq_left hle
          _ = 50 * (rest.map Prod.snd).foldl max p.2 := mul_comm _ _
  · refine ⟨Verdict.mk [] 15 ex03 false, ?_, rfl, rfl⟩
    simp [ex03, aggregate, maxList, TOXICITY_THRESHOLD]
    norm_num

/-- Witness for C5 instantiating the universal part at `ex03`. -/
theorem C5_all_below_threshold_witness :
    (ex03.map Prod.fst = DETOXIFY_CATEGORIES) ∧
    (∀ p ∈ ex03, p.2 < (1 : ℚ)/2) ∧
    (∃ v m, aggregate ex03 = Except.ok v ∧
      m ∈ ex03.map Prod.snd ∧ (∀ s ∈ ex03.map Prod.snd, s ≤ m) ∧
      v.overall_score = 50 * m ∧ v.is_toxic = false) :=
  ⟨by decide, by norm_num [ex03],
    C5_all_below_threshold.1 ex03 (by decide) (by norm_num [ex03])⟩

/-- The aggregation of index.py lines 58-80 with the `min(·, 100)` cap of
line 77 removed — the comparison point for the refinement claim C8.  It is
otherwise identical to `aggregate`. -/
def aggregate_nocap (raw_scores : List (String × ℚ)) : Except AggError Verdict :=
  let detected := raw_scores.filter (fun p => TOXICITY_THRESHOLD ≤ p.2)
  if 0 < detected.length then
    Except.ok
      { detected_categories := detected
        overall_score := ((detected.map Prod.snd).sum / (detected.length : ℚ)) * 100
        all_scores := raw_scores
        is_toxic := decide (0 < detected.length) }
  else
    match maxList (raw_scores.map Prod.snd) with
    | Except.error e => Except.error e
    | Except.ok m =>
      Except.ok
        { detected_categories := detected
          overall_score := m * 50
          all_scores := raw_scores
          is_toxic := decide (0 < detected.length) }

theorem aggregate_nocap_pos (raw : List (String × ℚ))
    (h : raw.filter (fun p => TOXICITY_THRESHOLD ≤ p.2) ≠ []) :
    aggregate_nocap raw = Except.ok
      { detected_categories := raw.filter (fun p => TOXICITY_THRESHOLD ≤ p.2)
        overall_score := (((raw.filter (fun p => TOXICITY_THRESHOLD ≤ p.2)).map
          Prod.snd).sum /
          ((raw.filter (fun p => TOXICITY_THRESHOLD ≤ p.2)).length : ℚ)) * 100
        all_scores := raw
        is_toxic := true } := by
  have hl : 0 < (raw.filter (fun p => TOXICITY_THRESHOLD ≤ p.2)).length :=
    List.length_pos.mpr h
  simp [aggregate_nocap, hl]

theorem aggregate_nocap_zero (raw : List (String × ℚ)) (x : ℚ) (xs : List ℚ)
    (hmap : raw.map Prod.snd = x :: xs)
    (h : raw.filter (fun p => TOXICITY_THRESHOLD ≤ p.2) = []) :
    aggregate_nocap raw = Except.ok
      { detected_categories := []
        overall_score := (xs.foldl max x) * 50
        all_scores := raw
        is_toxic := false } := by
  simp [aggregate_nocap, h, hmap, maxList]

/-- C8: on every RawScores of the six categories with scores in [0,1] the
`min(·, 100)` cap never bites: the aggregator equals the same function with
the cap removed. -/
theorem C8_cap_is_noop (raw : List (String × ℚ))
    (hcat : raw.map Prod.fst = DETOXIFY_CATEGORIES)
    (hb : ∀ p ∈ raw, 0 ≤ p.2 ∧ p.2 ≤ 1) :
    aggregate raw = aggregate_nocap raw := by
  by_cases h : raw.filter (fun p => TOXICITY_THRESHOLD ≤ p.2) = []
  · cases raw with
    | nil => exact absurd rfl (ne_nil_of_map_fst_cat [] hcat)
    | cons p rest =>
      have hm1 : (rest.map Prod.snd).foldl max p.2 ≤ 1 := by
        rcases List.mem_cons.mp (foldl_max_mem p.2 (rest.map Prod.snd)) with h1 | h2
        · rw [h1]; exact (hb p (List.mem_cons_self p rest)).2
        · obtain ⟨q, hq, hq2⟩ := List.mem_map.mp h2
          rw [← hq2]; exact (hb q (List.mem_cons_of_mem p hq)).2
      rw [aggregate_zero (p :: rest) p.2 (rest.map Prod.snd) rfl h,
        aggregate_nocap_zero (p :: rest) p.2 (rest.map Prod.snd) rfl h]
      have hmin : min ((rest.map Prod.snd).foldl max p.2 * 50) 100
          = (rest.map Prod.snd).foldl max p.2 * 50 := min_eq_left (by linarith)
      rw [hmin]
  · have hl : 0 < (raw.filter (fun p => TOXICITY_THRESHOLD ≤ p.2)).length :=
      List.length_pos.mpr h
    have hsum : ((raw.filter (fun p => TOXICITY_THRESHOLD ≤ p.2)).map Prod.snd).sum ≤
        ((raw.filter (fun p => TOXICITY_THRESHOLD ≤ p.2)).length : ℚ) := by
      have hb2 : ∀ y ∈ (raw.filter (fun p => TOXICITY_THRESHOLD ≤ p.2)).map Prod.snd,
          y ≤ (1 : ℚ) := by
        intro y hy
        obtain ⟨q, hq, rfl⟩ := List.mem_map.mp hy
        exact (hb q (List.mem_filter.mp hq).1).2
      have := List.sum_le_card_nsmul
        ((raw.filter (fun p => TOXICITY_THRESHOLD ≤ p.2)).map Prod.snd) 1 hb2
      simpa [List.length_map, nsmul_eq_mul] using this
    have hdiv : ((raw.filter (fun p => TOXICITY_THRESHOLD ≤ p.2)).map Prod.snd).sum /
        ((raw.filter (fun p => TOXICITY_THRESHOLD ≤ p.2)).length : ℚ) ≤ 1 := by
      rw [div_le_one (by exact_mod_cast hl)]
      exact hsum
    rw [aggregate_pos raw h, aggregate_nocap_pos raw h]
    have hmin : min ((((raw.filter (fun p => TOXICITY_THRESHOLD ≤ p.2)).map Prod.snd).sum /
        ((raw.filter (fun p => TOXICITY_THRESHOLD ≤ p.2)).length : ℚ)) * 100) 100
        = (((raw.filter (fun p => TOXICITY_THRESHOLD ≤ p.2)).map Prod.snd).sum /
        ((raw.filter (fun p => TOXICITY_THRESHOLD ≤ p.2)).length : ℚ)) * 100 :=
      min_eq_left (by linarith)
    rw [hmin]

/-- Witness for C8 at a concrete six-category input. -/
theorem C8_cap_is_noop_witness :
    (rawExample.map Prod.fst = DETOXIFY_CATEGORIES) ∧
    (∀ p ∈ rawExample, 0 ≤ p.2 ∧ p.2 ≤ 1) ∧
    aggregate rawExample = aggregate_nocap rawExample :=
  ⟨by decide, by norm_num [rawExample],
    C8_cap_is_noop rawExample (by decide) (by norm_num [rawExample])⟩

/-- C4 counterexample: a request body that fails to parse as JSON makes
`request.get_json()` raise inside the handler's blanket `try`, so the route
answers 500, not the 400 the claim requires for malformed input. -/
theorem C4_malformed_body_gives_500 :
    analyze_text_route highToxPredict TextRequest.badJson =
      HttpResponse.err 500 "Text analysis failed" := rfl

/-- C4 (amended): the text handler returns 400 exactly when the parsed body
is absent/null or lacks a `text` key, or the text strips to empty; for a
well-formed non-empty string it returns the aggregator's verdict with 200;
a body that fails to parse as JSON yields 500. -/
theorem C4_text_route_amended (predict : String → List (String × ℚ))
    (hp : ∀ t, predict t ≠ []) :
    (∀ r : TextRequest,
      (∃ msg, analyze_text_route predict r = HttpResponse.err 400 msg) ↔
      (r = TextRequest.noBody ∨ r = TextRequest.missingText ∨
        ∃ s, r = TextRequest.withText s ∧ pyStrip s = "")) ∧
    (∀ s, pyStrip s ≠ "" →
      ∃ v, aggregate (predict (pyStrip s)) = Except.ok v ∧
        analyze_text_route predict (TextRequest.withText s) = HttpResponse.ok v none) ∧
    analyze_text_route predict TextRequest.badJson =
      HttpResponse.err 500 "Text analysis failed" := by
  refine ⟨?_, ?_, rfl⟩
  · intro r
    cases r with
    | badJson => simp [analyze_text_route]
    | noBody => simp [analyze_text_route]
    | missingText => simp [analyze_text_route]
    | withText s =>
      by_cases hs : pyStrip s = ""
      · simp only [analyze_text_route, hs, if_pos]
        constructor
        · intro _; exact Or.inr (Or.inr ⟨s, rfl, hs⟩)
        · intro _; exact ⟨"Text cannot be empty", by simp⟩
      · obtain ⟨v, hv⟩ := aggregate_ok_of_ne_nil (predict (pyStrip s)) (hp _)
        simp [analyze_text_route, hs, hv]
  · intro s hs
    obtain ⟨v, hv⟩ := aggregate_ok_of_ne_nil (predict (pyStrip s)) (hp _)
    exact ⟨v, hv, by simp [analyze_text_route, hs, hv]⟩

/-- Witness for C4's amended statement at a concrete classifier, a
whitespace-only text and a malformed body. -/
theorem C4_text_route_amended_witness :
    (∀ t, highToxPredict t ≠ []) ∧
    ((∃ msg, analyze_text_route highToxPredict (TextRequest.withText "   ") =
        HttpResponse.err 400 msg) ↔
      (TextRequest.withText "   " = TextRequest.noBody ∨
        TextRequest.withText "   " = TextRequest.missingText ∨
        ∃ s, TextRequest.withText "   " = TextRequest.withText s ∧ pyStrip s = "")) ∧
    analyze_text_route highToxPredict TextRequest.badJson =
      HttpResponse.err 500 "Text analysis failed" :=
  ⟨fun t => by simp [highToxPredict],
    (C4_text_route_amended highToxPredict (fun t => by simp [highToxPredict])).1
      (TextRequest.withText "   "),
    (C4_text_route_amended highToxPredict (fun t => by simp [highToxPredict])).2.2⟩

/-- C2 is refuted by the code: the audio route short-circuits only on the
literal sentinel and on strings starting with `"Error"`, but the audio
adapter's failure strings start with `"Audio processing error"` /
`"Speech recognition error"`, so they fall through to the aggregator.  The
first conjunct evaluates the route on a processing failure: the error
string is passed to the classifier and an (arbitrarily toxic) verdict is
returned instead of the zero-score response.  The second conjunct shows the
sentinel path does short-circuit as claimed. -/
theorem C2_audio_error_not_short_circuited :
    analyze_audio_route highToxPredict
        (speech_to_text (SttOutcome.processingError "boom")) (some "clip.wav") =
      HttpResponse.ok (Verdict.mk [("toxic", 9/10)] 90 rawExample true)
        (some "Audio processing error: boom") ∧
    analyze_audio_route highToxPredict
        (speech_to_text SttOutcome.unknownValue) (some "clip.wav") =
      HttpResponse.ok zeroScoresVerdict (some "Could not understand audio") := by
  have h1 : allowed_audio_file "clip.wav" = true := by decide
  have h2 : pyStartsWith "Audio processing error: boom" "Error" = false := by decide
  constructor
  · simp [analyze_audio_route, speech_to_text, h1, h2, highToxPredict, rawExample,
      aggregate, maxList, TOXICITY_THRESHOLD]
    norm_num
  · simp [analyze_audio_route, speech_to_text, h1]

/-- C7: any audio request carrying a non-empty filename whose extension is
not allowed is answered 400 with the exact invalid-format message,
independently of the adapter output and the classifier (so neither is
invoked). -/
theorem C7_invalid_extension_400 (predict : String → List (String × ℚ))
    (stt_result : String) (filename : String) (hne : filename ≠ "")
    (hext : allowed_audio_file filename = false) :
    analyze_audio_route predict stt_result (some filename) =
      HttpResponse.err 400 "Invalid audio format. Supported: WAV, MP3, M4A, FLAC, AAC" := by
  simp [analyze_audio_route, hne, hext]

/-- Witness for C7 at filename `clip.txt`. -/
theorem C7_invalid_extension_400_witness :
    ("clip.txt" ≠ "") ∧ (allowed_audio_file "clip.txt" = false) ∧
    analyze_audio_route highToxPredict "anything" (some "clip.txt") =
      HttpResponse.err 400 "Invalid audio format. Supported: WAV, MP3, M4A, FLAC, AAC" :=
  ⟨by decide, by decide,
    C7_invalid_extension_400 highToxPredict "anything" "clip.txt" (by decide) (by decide)⟩

/-- The 200-body invariant of claim C9: `detected_categories` is the
restriction of `all_scores` to entries scoring at least 0.5, and `is_toxic`
holds iff `detected_categories` is non-empty. -/
def VerdictInv (v : Verdict) : Prop :=
  v.detected_categories = v.all_scores.filter (fun p => (1 : ℚ)/2 ≤ p.2) ∧
  (v.is_toxic = true ↔ v.detected_categories ≠ [])

theorem aggregate_inv (raw : List (String × ℚ)) (v : Verdict)
    (h : aggregate raw = Except.ok v) : VerdictInv v := by
  by_cases hf : raw.filter (fun p => TOXICITY_THRESHOLD ≤ p.2) = []
  · cases hraw : raw.map Prod.snd with
    | nil =>
      have hnil : raw = [] := List.map_eq_nil_iff.mp hraw
      subst hnil
      simp [aggregate, maxList] at h
    | cons x xs =>
      rw [aggregate_zero raw x xs hraw hf] at h
      injection h with h2
      subst h2
      constructor
      · exact hf.symm
      · simp
  · rw [aggregate_pos raw hf] at h
    injection h with h2
    subst h2
    constructor
    · rfl
    · simp [hf]

theorem zeroScoresVerdict_inv : VerdictInv zeroScoresVerdict := by
  constructor
  · simp [zeroScoresVerdict, DETOXIFY_CATEGORIES]
  · simp [zeroScoresVerdict]

/-- C9: whenever one of the three analyze routes answers 200, the returned
body satisfies `VerdictInv`; moreover the short-circuit body used by the
image and audio routes has `all_scores` mapping exactly the six categories
to 0, empty `detected_categories` and `is_toxic` false. -/
theorem C9_response_invariant (predict : String → List (String × ℚ))
    (ocr_result stt_result : String) (r : TextRequest) (img aud : Option String) :
    (∀ v e, analyze_text_route predict r = HttpResponse.ok v e → VerdictInv v) ∧
    (∀ v e, analyze_image_route predict ocr_result img = HttpResponse.ok v e → VerdictInv v) ∧
    (∀ v e, analyze_audio_route predict stt_result aud = HttpResponse.ok v e → VerdictInv v) ∧
    (zeroScoresVerdict.all_scores.map Prod.fst = DETOXIFY_CATEGORIES ∧
      (∀ p ∈ zeroScoresVerdict.all_scores, p.2 = 0) ∧
      zeroScoresVerdict.detected_categories = [] ∧
      zeroScoresVerdict.is_toxic = false) := by
  refine ⟨?_, ?_, ?_, ?_⟩
  · intro v e h
    cases r with
    | badJson => simp [analyze_text_route] at h
    | noBody => simp [analyze_text_route] at h
    | missingText => simp [analyze_text_route] at h
    | withText s =>
      by_cases hs : pyStrip s = ""
      · simp [analyze_text_route, hs] at h
      · cases hagg : aggregate (predict (pyStrip s)) with
        | error err => simp [analyze_text_route, hs, hagg] at h
        | ok w =>
          simp [analyze_text_route, hs, hagg] at h
          rw [← h.1]
          exact aggregate_inv _ w hagg
  · intro v e h
    cases img with
    | none => simp [analyze_image_route] at h
    | some filename =>
      by_cases hfn : filename = ""
      · simp [analyze_image_route, hfn] at h
      · by_cases hsc : (pyStartsWith ocr_result "Error" ||
            decide (ocr_result = "No text detected in image")) = true
        · simp [analyze_image_route, hfn, hsc] at h
          rw [← h.1]
          exact zeroScoresVerdict_inv
        · cases hagg : aggregate (predict ocr_result) with
          | error err => simp [analyze_image_route, hfn, hsc, hagg] at h
          | ok w =>
            simp [analyze_image_route, hfn, hsc, hagg] at h
            rw [← h.1]
            exact aggregate_inv _ w hagg
  · intro v e h
    cases aud with
    | none => simp [analyze_audio_route] at h
    | some filename =>
      by_cases hfn : filename = ""
      · simp [analyze_audio_route, hfn] at h
      · by_cases hal : allowed_audio_file filename = true
        · by_cases hsc : (pyStartsWith stt_result "Error" ||
              decide (stt_result = "Could not understand audio")) = true
          · simp [analyze_audio_route, hfn, hal, hsc] at h
            rw [← h.1]
            exact zeroScoresVerdict_inv
          · cases hagg : aggregate (predict stt_result) with
            | error err => simp [analyze_audio_route, hfn, hal, hsc, hagg] at h
            | ok w =>
              simp [analyze_audio_route, hfn, hal, hsc, hagg] at h
              rw [← h.1]
              exact aggregate_inv _ w hagg
        · simp [analyze_audio_route, hfn, hal] at h
  · refine ⟨by simp [zeroScoresVerdict, DETOXIFY_CATEGORIES], ?_, rfl, rfl⟩
    intro p hp
    simp [zeroScoresVerdict] at hp
    obtain ⟨c, _, rfl⟩ := hp
    rfl

/-- Witness for C9: the invariant on a concrete 200 response of the text
route. -/
theorem C9_response_invariant_witness :
    VerdictInv (Verdict.mk [("toxic", 9/10)] 90 rawExample true) :=
  (C9_response_invariant highToxPredict "ocr" "stt" (TextRequest.withText "hi") none none).1
    (Verdict.mk [("toxic", 9/10)] 90 rawExample true) none
    (by
      have hs : pyStrip "hi" = "hi" := by decide
      simp [analyze_text_route, hs, highToxPredict, rawExample, aggregate, maxList,
        TOXICITY_THRESHOLD]
      norm_num)

/-- In a list with a dot, the part before the first dot is the
`takeWhile` and some rest follows the dot. -/
theorem takeWhile_dot_decomp (r : List Char) (hr : '.' ∈ r) :
    ∃ rest, r = r.takeWhile (fun c => c != '.') ++ '.' :: rest ∧
      '.' ∉ r.takeWhile (fun c => c != '.') := by
  induction r with
  | nil => simp at hr
  | cons c cs ih =>
    by_cases hc : c = '.'
    · subst hc
      exact ⟨cs, by simp [List.takeWhile_cons], by simp [List.takeWhile_cons]⟩
    · have hb : (c != '.') = true := by simp [hc]
      have hcs : '.' ∈ cs := by
        rcases List.mem_cons.mp hr with h1 | h2
        · exact absurd h1.symm hc
        · exact h2
      obtain ⟨rest, hre, hni⟩ := ih hcs
      refine ⟨rest, ?_, ?_⟩
      · simp only [List.takeWhile_cons, hb, if_true, List.cons_append]
        exact congrArg (c :: ·) hre
      · simp only [List.takeWhile_cons, hb, if_true]
        intro hmem
        rcases List.mem_cons.mp hmem with h1 | h2
        · exact hc h1.symm
        · exact hni h2

/-- `takeWhile (· != '.')` of `ext ++ '.' :: pre` is exactly `ext` when
`ext` has no dot. -/
theorem takeWhile_dot_append (pre ext : List Char) (hni : '.' ∉ ext) :
    (ext ++ '.' :: pre).takeWhile (fun c => c != '.') = ext := by
  induction ext with
  | nil => simp [List.takeWhile_cons]
  | cons c cs ih =>
    have hc : c ≠ '.' := by
      intro hce
      exact hni (by rw [hce]; exact List.mem_cons_self _ _)
    have hb : (c != '.') = true := by simp [hc]
    have hni2 : '.' ∉ cs := fun h2 => hni (List.mem_cons_of_mem c h2)
    simp [List.takeWhile_cons, hb, ih hni2]

/-- Splitting off the substring after the last dot: existence. -/
theorem pyRsplitExt_decomp (l : List Char) (hl : '.' ∈ l) :
    ∃ pre, l = pre ++ '.' :: pyRsplitExt l ∧ '.' ∉ pyRsplitExt l := by
  have hr : '.' ∈ l.reverse := List.mem_reverse.mpr hl
  obtain ⟨rest, hre, hni⟩ := takeWhile_dot_decomp l.reverse hr
  refine ⟨rest.reverse, ?_, ?_⟩
  · have h2 := congrArg List.reverse hre
    rw [List.reverse_reverse] at h2
    conv_lhs => rw [h2]
    simp [pyRsplitExt, List.reverse_append]
  · intro hmem
    exact hni (List.mem_reverse.mp hmem)

/-- Splitting off the substring after the last dot: uniqueness. -/
theorem pyRsplitExt_of_decomp (pre ext : List Char) (hni : '.' ∉ ext) :
    pyRsplitExt (pre ++ '.' :: ext) = ext := by
  have h1 : (pre ++ '.' :: ext).reverse = ext.reverse ++ '.' :: pre.reverse := by
    simp [List.reverse_append]
  unfold pyRsplitExt
  rw [h1, takeWhile_dot_append pre.reverse ext.reverse
    (fun hm => hni (List.mem_reverse.mp hm))]
  simp

/-- C10: `allowed_audio_file` accepts exactly the filenames containing a
dot whose substring after the last dot, lowercased, is one of the five
allowed extensions; the check is case-insensitive (`CLIP.WAV` passes) and
dotless filenames are always rejected. -/
theorem C10_allowed_audio_characterization :
    (∀ f : String, allowed_audio_file f = true ↔
      ∃ pre ext : List Char, f.toList = pre ++ '.' :: ext ∧ '.' ∉ ext ∧
        String.mk (ext.map Char.toLower) ∈ ALLOWED_AUDIO_EXTENSIONS) ∧
    allowed_audio_file "CLIP.WAV" = true ∧
    (∀ f : String, '.' ∉ f.toList → allowed_audio_file f = false) := by
  have hmain : ∀ f : String, allowed_audio_file f = true ↔
      ∃ pre ext : List Char, f.toList = pre ++ '.' :: ext ∧ '.' ∉ ext ∧
        String.mk (ext.map Char.toLower) ∈ ALLOWED_AUDIO_EXTENSIONS := by
    intro f
    unfold allowed_audio_file
    rw [Bool.and_eq_true, decide_eq_true_eq, decide_eq_true_eq]
    constructor
    · rintro ⟨hdot, hext⟩
      obtain ⟨pre, hdec, hni⟩ := pyRsplitExt_decomp f.toList hdot
      exact ⟨pre, pyRsplitExt f.toList, hdec, hni, hext⟩
    · rintro ⟨pre, ext, hdec, hni, hmem⟩
      constructor
      · rw [hdec]; simp
      · rw [hdec, pyRsplitExt_of_decomp pre ext hni]; exact hmem
  refine ⟨hmain, by decide, ?_⟩
  intro f hf
  cases hal : allowed_audio_file f with
  | false => rfl
  | true =>
    obtain ⟨pre, ext, hdec, _, _⟩ := (hmain f).mp hal
    exact absurd (by rw [hdec]; simp) hf

/-- Witness for C10: a dotless filename is rejected. -/
theorem C10_allowed_audio_characterization_witness :
    ('.' ∉ "clipwav".toList) ∧ allowed_audio_file "clipwav" = false :=
  ⟨by decide, C10_allowed_audio_characterization.2.2 "clipwav" (by decide)⟩
